import Mathlib

/-!
Verification development for the slingxdcc core (SlingManager.js, SlingIrc.js).

The JavaScript sources are embedded shallowly: the manager's mutable state
(the network registry, per-bot transfer queues, the finished set, the
persisted pending-lists and network configs, the pack document store) is an
explicit `MState` record, and every manager method / transfer-engine event
handler is a pure function from `MState` to `MState` together with the list
of signals (`start` / `cancel` / `kill`) it emits to transfer-engine
handles.  The packet-announcement size normalization and the connection
session's toJSON/fromJSON are embedded directly as pure functions.
-/

namespace Sling

/-- JavaScript-ish values, used where the source can receive a non-string
argument (lodash `isString` checks) and for the result of `parseInt` which
may be NaN. -/
inductive JsVal where
  | vstr (s : String)
  | vnum (n : Int)
  | vnan
  | vundef
  deriving DecidableEq, Repr

/-- lodash `_.isString`. -/
def JsVal.isString : JsVal → Bool
  | .vstr _ => true
  | _ => false

/-- ASCII lower-casing of one character (enough for `toLowerCase` on the
size-unit letters the parser compares against). -/
def charLower (c : Char) : Char :=
  if 'A' ≤ c ∧ c ≤ 'Z' then Char.ofNat (c.toNat + 32) else c

/-- JavaScript `String.prototype.toLowerCase` on ASCII strings. -/
def strLower (s : String) : String := String.mk (s.data.map charLower)

/-- JavaScript `parseInt(s)` (radix 10): skip leading whitespace, optional
sign, then the longest prefix of digits; NaN when there is none. -/
def parseIntJs (s : String) : JsVal :=
  let cs := s.data.dropWhile (fun c => c.isWhitespace)
  let signRest : Int × List Char :=
    match cs with
    | '-' :: t => (-1, t)
    | '+' :: t => (1, t)
    | t => (1, t)
  let ds := signRest.2.takeWhile (fun c => c.isDigit)
  if ds.isEmpty then .vnan
  else .vnum (signRest.1 * (ds.foldl (fun a c => a * 10 + (c.toNat - 48)) 0 : Nat))

/-- JavaScript `x *= 1024` on a parsed size: numbers multiply, anything
else (NaN/undefined) stays NaN. -/
def jsMul1024 : JsVal → JsVal
  | .vnum n => .vnum (n * 1024)
  | _ => .vnan

/-- The part of the pack record `handle.packParse` builds that the size
normalization reads and writes (SlingIrc.js lines 190-212).  The remaining
mapped capture-group fields do not participate. -/
structure PackData where
  size : Option JsVal
  sizeUnit : Option JsVal
  fileName : Option String
  deriving DecidableEq, Repr

/-- SlingIrc.js `handle.packParse`, lines 194-212: if both `size` and
`sizeUnit` are strings, `size` is `parseInt`ed and the lower-cased unit is
dispatched through a fall-through `switch` that multiplies by 1024 once per
tier from the matched case down to `"k"`; on a match the `sizeUnit` field
is deleted, otherwise the parsed value is kept unscaled and the unit field
retained. -/
def normalizeSize (pd : PackData) : PackData :=
  match pd.size, pd.sizeUnit with
  | some (.vstr s), some (.vstr u) =>
    let n := parseIntJs s
    let ul := strLower u
    if ul = "t" then
      { pd with size := some (jsMul1024 (jsMul1024 (jsMul1024 (jsMul1024 n)))), sizeUnit := none }
    else if ul = "g" then
      { pd with size := some (jsMul1024 (jsMul1024 (jsMul1024 n))), sizeUnit := none }
    else if ul = "m" then
      { pd with size := some (jsMul1024 (jsMul1024 n)), sizeUnit := none }
    else if ul = "k" then
      { pd with size := some (jsMul1024 n), sizeUnit := none }
    else
      { pd with size := some n }
  | _, _ => pd

/-- Association-list get: JavaScript `Map.get` / object property read. -/
def alget {α : Type} : List (String × α) → String → Option α
  | [], _ => none
  | (k, v) :: t, k' => if k = k' then some v else alget t k'

/-- Association-list set: JavaScript `Map.set` / object property write —
updates the entry in place when the key exists, appends otherwise. -/
def alset {α : Type} (m : List (String × α)) (k : String) (v : α) : List (String × α) :=
  if (alget m k).isSome then
    m.map (fun p => if p.1 = k then (k, v) else p)
  else
    m ++ [(k, v)]

/-- Association-list delete: JavaScript `Map.delete` / `delete obj[k]`. -/
def alerase {α : Type} (m : List (String × α)) (k : String) : List (String × α) :=
  m.filter (fun p => ¬ (p.1 = k))

/-- Modelled from the spec: `SlingChannel` lives in a source file that is
not part of this extract (SlingIrc.js only `require`s it).  Per spec §3 a
channel has a case-insensitive name key plus password/pattern/topic fields;
only the name participates in the claims below, and
`SlingChannel.fromJSON`/serialization are taken to round-trip it. -/
structure Channel where
  name : String
  deriving DecidableEq, Repr

/-- The `opts` record accepted by the SlingIrc constructor (and the shape
`toJSON` nests under `opts`): optional nick, command sequence and channel
list.  The underlying protocol-client options are opaque to the claims and
omitted. -/
structure IrcOpts where
  nick : Option String
  commands : Option (List String)
  channels : Option (List Channel)
  deriving DecidableEq, Repr

/-- Connection Session state: the `_privates` record of a SlingIrc
instance (SlingIrc.js lines 278-290), restricted to the fields the claims
mention.  `chans` is the insertion-ordered Map from channel name to
channel. -/
structure SIrc where
  hostname : String
  nick : String
  commands : List String
  chans : List (String × Channel)
  status : String
  motd : String
  deriving DecidableEq, Repr

/-- The SlingIrc constructor (SlingIrc.js lines 236-316) restricted to the
round-tripped state: nick defaults to a generated one (`nomi.generate()`,
passed in as `genNick` since the generator is an external package),
commands/channels default to `[]`, channels are entered into the `chans`
map in order, status starts as "connecting". -/
def SIrc.make (hostname : String) (opts : IrcOpts) (genNick : String) : SIrc :=
  { hostname := hostname
    nick := opts.nick.getD genNick
    commands := opts.commands.getD []
    chans := (opts.channels.getD []).foldl (fun m c => alset m c.name c) []
    status := "connecting"
    motd := "" }

/-- The serialized snapshot shape: `toJSON` (SlingIrc.js lines 412-427)
emits hostname at top level and nick/commands/channels nested under
`opts`; `fromJSON` (lines 332-356) reads hostname and — notably — `nick`
from the TOP level and everything else from `opts`.  Fields absent in a
given direction are `Option`s. -/
structure IrcJson where
  hostname : Option String
  nick : Option String
  opts : Option IrcOpts
  status : Option String
  deriving DecidableEq, Repr

/-- SlingIrc.js `toJSON`, lines 412-427: the nick is nested under `opts`,
the top-level `nick` slot that `fromJSON` reads is never written. -/
def SIrc.toJSON (s : SIrc) : IrcJson :=
  { hostname := some s.hostname
    nick := none
    opts := some { nick := some s.nick
                   commands := some s.commands
                   channels := some (s.chans.map (fun p => p.2)) }
    status := some s.status }

/-- SlingIrc.js `fromJSON`, lines 332-356: demands a string hostname, reads
the nick from the top level (`json.nick`), commands from `json.opts`, and
rebuilds the channels with `unshift`, i.e. in reversed order; then calls
the constructor. -/
def SIrc.fromJSON (json : IrcJson) (genNick : String) : Except String SIrc :=
  match json.hostname with
  | none => .error "parameter json.hostname ist not a string"
  | some host =>
    let o1 : IrcOpts := { nick := json.nick, commands := none, channels := none }
    let o2 : IrcOpts :=
      match json.opts with
      | none => o1
      | some jo =>
        { o1 with
            commands := jo.commands
            channels := jo.channels.map (fun cs => cs.foldl (fun acc c => c :: acc) []) }
    .ok (SIrc.make host o2 genNick)

/-- A concrete session used to exhibit the round-trip nick loss. -/
def sIrcBug : SIrc :=
  { hostname := "irc.example.net"
    nick := "alice"
    commands := ["PRIVMSG nickserv identify hunter2"]
    chans := [("#moviegods", { name := "#moviegods" }), ("#beast", { name := "#beast" })]
    status := "connected"
    motd := "welcome" }

/-- The session `fromJSON (toJSON sIrcBug)` actually produces. -/
def sIrcRebuilt : SIrc :=
  { hostname := "irc.example.net"
    nick := "sling1234"
    commands := ["PRIVMSG nickserv identify hunter2"]
    chans := [("#beast", { name := "#beast" }), ("#moviegods", { name := "#moviegods" })]
    status := "connecting"
    motd := "" }

/-- The state of one transfer-engine handle (axdcc, external collaborator)
as far as the manager reads it: the notices it accumulated and the status
string of its pack (`cnXdcc.pack.status`, initially "created"). -/
structure Handle where
  hnotices : List String
  status : String
  deriving DecidableEq, Repr

/-- A queued Download Request (the `pack` object living in
`nw.xdcc[bot]`): its composite id, owning network, bot nick, filename, the
notices copied on completion, the owned transfer-engine handle (none once
`delete request.xdcc` ran), and a ghost flag `active` recording that the
request has received a "start" signal and no terminal event yet. -/
structure Request where
  id : String
  network : String
  bot : String
  name : String
  notices : List String
  xdcc : Option Handle
  active : Bool
  deriving DecidableEq, Repr

/-- One entry of the persisted pending-list (`sc.dl`), as pushed by
`addDownload`: SlingManager.js lines 382-385. -/
structure DlEntry where
  pack : String
  name : String
  deriving DecidableEq, Repr

/-- A pack-offer document in the document store (`db.getItem`), which is an
external collaborator (spec §6): composite id, network, bot and filename. -/
structure Pack where
  id : String
  network : String
  bot : String
  name : String
  deriving DecidableEq, Repr

/-- The per-network configuration persisted by `addNetwork`
(SlingManager.js lines 213-216). -/
structure NwConf where
  hostname : String
  opts : IrcOpts
  deriving DecidableEq, Repr

/-- One registered network: its per-bot transfer queues (`nw.xdcc`, an
object mapping bot nick to an array of requests) and a flag standing for
the owned connection session being connected. -/
structure NetworkSt where
  xdcc : List (String × List Request)
  connected : Bool
  deriving DecidableEq, Repr

/-- The manager's mutable state: the network registry, the finished set
(insertion-ordered), the persisted pending-lists (`sc.dl`) with a counter
of `sc.dl.save()` calls, the persisted network configs (`sc.nw`) with a
counter of `sc.nw.save()` calls, and the pack document store. -/
structure MState where
  networks : List (String × NetworkSt)
  finished : List Request
  dl : List (String × List DlEntry)
  dlSaves : Nat
  nwConf : List (String × NwConf)
  nwSaves : Nat
  db : List Pack
  deriving DecidableEq, Repr

/-- The signals the manager emits to a transfer-engine handle. -/
inductive SigKind where
  | start
  | cancel
  | kill
  deriving DecidableEq, Repr

/-- One emitted signal, tagged with the id of the request whose handle
received it. -/
structure Sig where
  reqId : String
  kind : SigKind
  deriving DecidableEq, Repr

/-- The empty manager state at boot, before any network is restored; the
document store contents are a parameter. -/
def initState (db : List Pack) : MState :=
  { networks := [], finished := [], dl := [], dlSaves := 0,
    nwConf := [], nwSaves := 0, db := db }

/-- `finished.add(request)`: JavaScript `Set.add` — a no-op when the
element is already present, otherwise appended. -/
def addFinished (fin : List Request) (r : Request) : List Request :=
  if r ∈ fin then fin else fin ++ [r]

/-- `xdcc[0].xdcc.emit("start")`: mark the head request active (ghost) and
record the start signal.  On an empty queue nothing happens. -/
def startHead : List Request → List Request × List Sig
  | [] => ([], [])
  | r :: t => ({ r with active := true } :: t, [{ reqId := r.id, kind := .start }])

/-- The uniform queue-advancement step after a head pop (SlingManager.js
lines 105-109, 130-134, 70-74): if the remaining queue is non-empty the
new head is started, otherwise the per-bot entry is deleted. -/
def advanceQueue (nw : NetworkSt) (bot : String) (rest : List Request) :
    NetworkSt × List Sig :=
  if rest.length ≥ 1 then
    let sh := startHead rest
    ({ nw with xdcc := alset nw.xdcc bot sh.1 }, sh.2)
  else
    ({ nw with xdcc := alerase nw.xdcc bot }, [])

/-- The key of a pending-list: `` `${network}:${bot}` ``. -/
def dlKey (network bot : String) : String := network ++ ":" ++ bot

/-- The pending-list entry corresponding to a queued request. -/
def toEntry (r : Request) : DlEntry := { pack := r.id, name := r.name }

/-- `sc.dl.get(key) || []; arr.shift(); sc.dl.set(key, arr); sc.dl.save()`
(SlingManager.js lines 110-113, 136-139, 75-78). -/
def dlShiftSave (s : MState) (network bot : String) : MState :=
  let arr := (alget s.dl (dlKey network bot)).getD []
  { s with dl := alset s.dl (dlKey network bot) arr.tail, dlSaves := s.dlSaves + 1 }

/-- A freshly constructed axdcc handle (`new Axdcc(...)`): no notices yet,
pack status "created". -/
def mkHandle : Handle := { hnotices := [], status := "created" }

/-- `addNetwork` (SlingManager.js lines 188-220): rejects a non-string
name (lodash `isString`; note the empty string passes) and a duplicate
name; otherwise registers the network with no queues and persists its
`\x7bhostname, opts\x7d` configuration. -/
def addNetwork (s : MState) (network : JsVal) (hostname : String) (opts : IrcOpts) :
    MState × Option String :=
  match network with
  | .vstr nm =>
    if (alget s.networks nm).isSome then
      (s, some "network name not unique")
    else
      ({ s with
          networks := alset s.networks nm { xdcc := [], connected := true },
          nwConf := alset s.nwConf nm { hostname := hostname, opts := opts },
          nwSaves := s.nwSaves + 1 }, none)
  | _ => (s, some "network must a string")

/-- `removeNetwork` (SlingManager.js lines 243-284): throws on an unknown
name; throws "downloads pending" when the per-bot queue object has any key
(`_.size(nw.xdcc) > 0` — note this counts entries, empty queues included);
otherwise disconnects and deletes the network and its persisted config.
Both throws happen before any mutation. -/
def removeNetwork (s : MState) (network : String) : MState × Option String :=
  match alget s.networks network with
  | none => (s, some "unknown network")
  | some nw =>
    if nw.xdcc.length > 0 then
      (s, some "downloads pending")
    else
      ({ s with
          networks := alerase s.networks network,
          nwConf := alerase s.nwConf network,
          nwSaves := s.nwSaves + 1 }, none)

/-- Result of `addDownload`: success, silent duplicate no-op, or the
"Pack not found" failure. -/
inductive AddDlRes where
  | ok
  | dup
  | notFound
  deriving DecidableEq, Repr

/-- `addDownload` (SlingManager.js lines 332-397): look the pack up in the
document store; fail when absent or its network unknown; silently do
nothing when its id is already queued for that (network, bot); otherwise
construct a fresh handle, append the request, start it when it is alone in
the queue, and — unless `dontPersist` — append a `\x7bpack, name\x7d` entry to
the persisted pending-list and save it. -/
def addDownload (s : MState) (id : String) (dontPersist : Bool) :
    MState × List Sig × AddDlRes :=
  match s.db.find? (fun p => p.id = id) with
  | none => (s, [], .notFound)
  | some pack =>
    match alget s.networks pack.network with
    | none => (s, [], .notFound)
    | some nw =>
      let q := (alget nw.xdcc pack.bot).getD []
      if q.any (fun r => r.id = pack.id) then
        (s, [], .dup)
      else
        let req : Request :=
          { id := pack.id, network := pack.network, bot := pack.bot,
            name := pack.name, notices := [], xdcc := some mkHandle, active := false }
        let q1 := q ++ [req]
        let q2s := if q1.length = 1 then startHead q1 else (q1, [])
        let nw' := { nw with xdcc := alset nw.xdcc pack.bot q2s.1 }
        let s1 := { s with networks := alset s.networks pack.network nw' }
        let s2 :=
          if dontPersist then s1
          else
            { s1 with
                dl := alset s1.dl (dlKey pack.network pack.bot)
                  (((alget s1.dl (dlKey pack.network pack.bot)).getD []) ++ [toEntry req]),
                dlSaves := s1.dlSaves + 1 }
        (s2, q2s.2, .ok)

/-- `cancelDownload` (SlingManager.js lines 408-439): fails on unknown
network, missing/empty per-bot queue, or absent pack id; otherwise emits
"cancel" to the found request's handle when its pack status is not
"created" and "kill" otherwise, then removes every queue entry with that
id.  No start signal is emitted and no queue advancement happens.  (When
the found request's handle was already released the JavaScript would throw
on `cnXdcc.pack`; that case is returned unchanged here.) -/
def cancelDownload (s : MState) (network bot id : String) :
    MState × List Sig × Option String :=
  match alget s.networks network with
  | none => (s, [], some "Network not found")
  | some nw =>
    match alget nw.xdcc bot with
    | none => (s, [], some "No download pending from bot")
    | some q =>
      if q.length = 0 then
        (s, [], some "No download pending from bot")
      else
        match q.find? (fun p => p.id = id) with
        | none => (s, [], some "Pack not found")
        | some req =>
          match req.xdcc with
          | none => (s, [], none)
          | some h =>
            let sig : Sig :=
              if h.status ≠ "created" then { reqId := req.id, kind := .cancel }
              else { reqId := req.id, kind := .kill }
            let q' := q.filter (fun p => ¬ (p.id = id))
            let nw' := { nw with xdcc := alset nw.xdcc bot q' }
            ({ s with networks := alset s.networks network nw' }, [sig], none)

/-- `handle.xdccComplete` (SlingManager.js lines 98-117), delivered for the
(network, bot) pair of the completing request: pop the queue head, copy the
handle's notices onto it, release the handle, add it to the finished set,
advance the queue, and shift-and-save the persisted pending-list.  The
cases in which the JavaScript would throw (no queue, empty queue, released
handle) are returned unchanged. -/
def xdccComplete (s : MState) (network bot : String) : MState × List Sig :=
  match alget s.networks network with
  | none => (s, [])
  | some nw =>
    match alget nw.xdcc bot with
    | none => (s, [])
    | some [] => (s, [])
    | some (r :: rest) =>
      match r.xdcc with
      | none => (s, [])
      | some h =>
        let r' := { r with notices := h.hnotices, xdcc := none, active := false }
        let adv := advanceQueue nw bot rest
        let s1 := { s with
                      networks := alset s.networks network adv.1,
                      finished := addFinished s.finished r' }
        (dlShiftSave s1 network bot, adv.2)

/-- `handle.xdccError` (SlingManager.js lines 123-143), delivered for the
(network, bot) pair of the failing request: pop the queue head, emit "kill"
to its handle, advance the queue, shift-and-save the persisted
pending-list, and re-submit the request id via `addDownload` (whose
document-store lookup resolves on a later tick, after the handler body).
Throwing cases are returned unchanged. -/
def xdccErrorHandler (s : MState) (network bot : String) : MState × List Sig :=
  match alget s.networks network with
  | none => (s, [])
  | some nw =>
    match alget nw.xdcc bot with
    | none => (s, [])
    | some [] => (s, [])
    | some (r :: rest) =>
      match r.xdcc with
      | none => (s, [])
      | some _ =>
        let adv := advanceQueue nw bot rest
        let s1 := { s with networks := alset s.networks network adv.1 }
        let s2 := dlShiftSave s1 network bot
        let re := addDownload s2 r.id false
        (re.1, { reqId := r.id, kind := .kill } :: (adv.2 ++ re.2.1))

/-- `handle.xdccProgress` (SlingManager.js lines 64-83) for a progress
event whose status is "canceled": pop the queue head (whatever it is),
advance, and shift-and-save the persisted pending-list.  The handler never
dereferences the popped request, so an empty queue is handled too; a
missing per-bot entry would throw and is returned unchanged. -/
def xdccProgressCanceled (s : MState) (network bot : String) : MState × List Sig :=
  match alget s.networks network with
  | none => (s, [])
  | some nw =>
    match alget nw.xdcc bot with
    | none => (s, [])
    | some q =>
      let adv := advanceQueue nw bot q.tail
      let s1 := { s with networks := alset s.networks network adv.1 }
      (dlShiftSave s1 network bot, adv.2)

/-- Replace the handle fields of the i-th request of a queue: the
transfer engine updating status/notices on its own events.  The ghost
`active` flag and the queue structure are untouched. -/
def modifyHandle (q : List Request) (i : Nat) (f : Handle → Handle) : List Request :=
  match q, i with
  | [], _ => []
  | r :: t, 0 => { r with xdcc := r.xdcc.map f } :: t
  | r :: t, Nat.succ n => r :: modifyHandle t n f

/-- The transfer engine asynchronously updating one handle's observable
fields (pack status, notices) in some queue. -/
def engineUpdate (s : MState) (network bot : String) (i : Nat) (f : Handle → Handle) :
    MState :=
  match alget s.networks network with
  | none => s
  | some nw =>
    match alget nw.xdcc bot with
    | none => s
    | some q =>
      { s with networks :=
          alset s.networks network { nw with xdcc := alset nw.xdcc bot (modifyHandle q i f) } }

/-- One event-loop turn of the orchestrator: a manager method invocation
or a transfer-engine / document-store event handler running to completion. -/
inductive Step : MState → MState → Prop where
  | stepAddNetwork (s : MState) (network : JsVal) (hostname : String) (opts : IrcOpts) :
      Step s (addNetwork s network hostname opts).1
  | stepRemoveNetwork (s : MState) (network : String) :
      Step s (removeNetwork s network).1
  | stepAddDownload (s : MState) (id : String) (dontPersist : Bool) :
      Step s (addDownload s id dontPersist).1
  | stepCancelDownload (s : MState) (network bot id : String) :
      Step s (cancelDownload s network bot id).1
  | stepComplete (s : MState) (network bot : String) :
      Step s (xdccComplete s network bot).1
  | stepError (s : MState) (network bot : String) :
      Step s (xdccErrorHandler s network bot).1
  | stepProgressCanceled (s : MState) (network bot : String) :
      Step s (xdccProgressCanceled s network bot).1
  | stepEngine (s : MState) (network bot : String) (i : Nat) (f : Handle → Handle) :
      Step s (engineUpdate s network bot i f)
  | stepDbChange (s : MState) (db' : List Pack) :
      Step s { s with db := db' }

/-- A transfer queue is well-formed when every request behind the head is
inactive: this packages both halves of claim C1. -/
def queueOk : List Request → Bool
  | [] => true
  | _ :: t => t.all (fun r => !r.active)

/-- All queues of one network are well-formed. -/
def netOk (nw : NetworkSt) : Bool :=
  nw.xdcc.all (fun bq => queueOk bq.2)

/-- All queues of all networks are well-formed. -/
def networksOk (ns : List (String × NetworkSt)) : Bool :=
  ns.all (fun p => netOk p.2)

/-- The persisted pending-list for a (network, bot) pair mirrors the
queued requests, as ordered `\x7bpack, name\x7d` entries. -/
def dlSynced (s : MState) (network bot : String) : Prop :=
  ((match alget s.networks network with
    | none => []
    | some nw => (alget nw.xdcc bot).getD []).map toEntry)
    = (alget s.dl (dlKey network bot)).getD []

/-- Document store used by the concrete witness runs. -/
def dbW : List Pack :=
  [{ id := "rizon:gimme:1", network := "rizon", bot := "gimme", name := "file.tar" },
   { id := "rizon:gimme:2", network := "rizon", bot := "gimme", name := "other.tar" }]

/-- Connection options used by the concrete witness runs. -/
def optsW : IrcOpts := { nick := some "w", commands := none, channels := none }

/-- Witness state: after registering the network "rizon". -/
def sW1 : MState := (addNetwork (initState dbW) (.vstr "rizon") "irc.rizon.net" optsW).1

/-- Witness state: after additionally enqueueing the first pack. -/
def sW2 : MState := (addDownload sW1 "rizon:gimme:1" false).1

/-- Witness state: after additionally enqueueing the second pack. -/
def sW3 : MState := (addDownload sW2 "rizon:gimme:2" false).1

/-- The network record inside `sW3`. -/
def nwW : NetworkSt := (alget sW3.networks "rizon").getD { xdcc := [], connected := true }

/-- The "gimme" transfer queue inside `sW3`. -/
def qW : List Request := (alget nwW.xdcc "gimme").getD []

/-- Fallback request used only as the default of total list accessors in
witness statements. -/
def reqFallback : Request :=
  { id := "", network := "", bot := "", name := "", notices := [],
    xdcc := none, active := false }

/-! ## Theorems -/

theorem alget_map_set {α : Type} (m : List (String × α)) (k : String) (v : α)
    (h : (alget m k).isSome = true) :
    alget (m.map (fun p => if p.1 = k then (k, v) else p)) k = some v := by
  induction m with
  | nil => simp [alget] at h
  | cons hd t ih =>
    obtain ⟨k0, v0⟩ := hd
    by_cases hk : k0 = k
    · subst hk
      simp only [List.map_cons]
      simp [alget]
    · simp only [alget, hk, if_false] at h
      simp only [List.map_cons]
      rw [if_neg (by simpa using hk)]
      simpa [alget, hk] using ih h

theorem alget_append_single {α : Type} (m : List (String × α)) (k : String) (v : α)
    (h : alget m k = none) :
    alget (m ++ [(k, v)]) k = some v := by
  induction m with
  | nil => simp [alget]
  | cons hd t ih =>
    obtain ⟨k0, v0⟩ := hd
    by_cases hk : k0 = k
    · simp [alget, hk] at h
    · simp only [alget, hk, if_false] at h
      simpa [alget, hk] using ih h

theorem alget_alset_self {α : Type} (m : List (String × α)) (k : String) (v : α) :
    alget (alset m k v) k = some v := by
  unfold alset
  by_cases h : (alget m k).isSome
  · rw [if_pos h]
    exact alget_map_set m k v h
  · rw [if_neg h]
    exact alget_append_single m k v (by
      cases hx : alget m k with
      | none => rfl
      | some w => rw [hx] at h; simp at h)

theorem alget_mem {α : Type} (m : List (String × α)) (k : String) (v : α)
    (h : alget m k = some v) : (k, v) ∈ m := by
  induction m with
  | nil => simp [alget] at h
  | cons hd t ih =>
    obtain ⟨k0, v0⟩ := hd
    by_cases hk : k0 = k
    · subst hk
      simp [alget] at h
      simp [h]
    · simp only [alget, hk, if_false] at h
      exact List.mem_cons_of_mem _ (ih h)

theorem all_alget {α : Type} (P : String × α → Bool) (m : List (String × α))
    (k : String) (v : α) (hm : m.all P = true) (h : alget m k = some v) :
    P (k, v) = true :=
  List.all_eq_true.mp hm _ (alget_mem m k v h)

theorem all_alset {α : Type} (P : String × α → Bool) (m : List (String × α))
    (k : String) (v : α) (hm : m.all P = true) (hv : P (k, v) = true) :
    (alset m k v).all P = true := by
  unfold alset
  split
  · rw [List.all_eq_true]
    intro x hx
    rw [List.mem_map] at hx
    obtain ⟨p, hp, hpx⟩ := hx
    by_cases hk : p.1 = k
    · rw [if_pos hk] at hpx
      rw [← hpx]
      exact hv
    · rw [if_neg hk] at hpx
      rw [← hpx]
      exact List.all_eq_true.mp hm _ hp
  · rw [List.all_append]
    simp [hm, hv]

theorem all_alerase {α : Type} (P : String × α → Bool) (m : List (String × α))
    (k : String) (hm : m.all P = true) : (alerase m k).all P = true := by
  rw [List.all_eq_true]
  intro x hx
  exact List.all_eq_true.mp hm _ (List.mem_of_mem_filter hx)

theorem alget_ne_nil {α : Type} {m : List (String × α)} {k : String} {v : α}
    (h : alget m k = some v) : m ≠ [] := by
  intro he
  subst he
  simp [alget] at h

theorem queueOk_of_all (q : List Request) (h : q.all (fun r => !r.active) = true) :
    queueOk q = true := by
  cases q with
  | nil => rfl
  | cons r t =>
    simp only [List.all_cons, Bool.and_eq_true] at h
    exact h.2

theorem queueOk_tail_all (q : List Request) (h : queueOk q = true) :
    q.tail.all (fun r => !r.active) = true := by
  cases q with
  | nil => rfl
  | cons r t => exact h

theorem all_filter_inactive (t : List Request) (p : Request → Bool)
    (h : t.all (fun r => !r.active) = true) :
    (t.filter p).all (fun r => !r.active) = true := by
  rw [List.all_eq_true]
  intro x hx
  exact List.all_eq_true.mp h _ (List.mem_of_mem_filter hx)

theorem queueOk_append_inactive (q : List Request) (r : Request)
    (hq : queueOk q = true) (hr : r.active = false) : queueOk (q ++ [r]) = true := by
  cases q with
  | nil => simp [queueOk, hr]
  | cons a t =>
    simp only [List.cons_append, queueOk, List.all_append] at *
    simp [hq, hr]

theorem queueOk_startHead (l : List Request)
    (h : l.all (fun r => !r.active) = true) : queueOk (startHead l).1 = true := by
  cases l with
  | nil => rfl
  | cons r t =>
    simp only [List.all_cons, Bool.and_eq_true] at h
    exact h.2

theorem queueOk_filter (q : List Request) (p : Request → Bool)
    (h : queueOk q = true) : queueOk (q.filter p) = true := by
  cases q with
  | nil => rfl
  | cons r t =>
    simp only [List.filter_cons]
    split
    · exact all_filter_inactive t p h
    · exact queueOk_of_all _ (all_filter_inactive t p h)

theorem modifyHandle_all (q : List Request) (i : Nat) (f : Handle → Handle)
    (h : q.all (fun r => !r.active) = true) :
    (modifyHandle q i f).all (fun r => !r.active) = true := by
  induction q generalizing i with
  | nil => rfl
  | cons r t ih =>
    simp only [List.all_cons, Bool.and_eq_true] at h
    cases i with
    | zero =>
      simp only [modifyHandle, List.all_cons, Bool.and_eq_true]
      exact ⟨h.1, h.2⟩
    | succ n =>
      simp only [modifyHandle, List.all_cons, Bool.and_eq_true]
      exact ⟨h.1, ih n h.2⟩

theorem queueOk_modifyHandle (q : List Request) (i : Nat) (f : Handle → Handle)
    (h : queueOk q = true) : queueOk (modifyHandle q i f) = true := by
  cases q with
  | nil => rfl
  | cons r t =>
    cases i with
    | zero => exact h
    | succ n => exact modifyHandle_all t n f h

theorem netOk_advanceQueue (nw : NetworkSt) (bot : String) (rest : List Request)
    (hnw : netOk nw = true) (hrest : rest.all (fun r => !r.active) = true) :
    netOk (advanceQueue nw bot rest).1 = true := by
  unfold advanceQueue
  split
  · exact all_alset _ nw.xdcc bot _ hnw (queueOk_startHead rest hrest)
  · exact all_alerase _ nw.xdcc bot hnw

theorem netOk_getD_queueOk (nw : NetworkSt) (bot : String) (hnw : netOk nw = true) :
    queueOk ((alget nw.xdcc bot).getD []) = true := by
  cases hq : alget nw.xdcc bot with
  | none => rfl
  | some q => exact all_alget _ nw.xdcc bot q hnw hq

theorem networksOk_addNetwork (s : MState) (network : JsVal) (hostname : String)
    (opts : IrcOpts) (h : networksOk s.networks = true) :
    networksOk (addNetwork s network hostname opts).1.networks = true := by
  unfold addNetwork
  cases network with
  | vstr nm =>
    dsimp only
    split
    · exact h
    · exact all_alset _ s.networks nm _ h rfl
  | vnum n => exact h
  | vnan => exact h
  | vundef => exact h

theorem networksOk_removeNetwork (s : MState) (network : String)
    (h : networksOk s.networks = true) :
    networksOk (removeNetwork s network).1.networks = true := by
  unfold removeNetwork
  cases hget : alget s.networks network with
  | none => exact h
  | some nw =>
    dsimp only
    split
    · exact h
    · exact all_alerase _ s.networks network h

theorem networksOk_addDownload (s : MState) (id : String) (dontPersist : Bool)
    (h : networksOk s.networks = true) :
    networksOk (addDownload s id dontPersist).1.networks = true := by
  unfold addDownload
  cases hfind : s.db.find? (fun p => p.id = id) with
  | none => exact h
  | some pack =>
    dsimp only
    cases hget : alget s.networks pack.network with
    | none => exact h
    | some nw =>
      dsimp only
      split
      · exact h
      · split
        · split
          · rename_i hlen
            refine all_alset _ s.networks pack.network _ h ?_
            refine all_alset _ nw.xdcc pack.bot _ (all_alget _ s.networks pack.network nw h hget) ?_
            have hq : (alget nw.xdcc pack.bot).getD [] = [] := by
              cases hc : (alget nw.xdcc pack.bot).getD [] with
              | nil => rfl
              | cons a t =>
                rw [hc] at hlen
                simp at hlen
            rw [hq]
            rfl
          · refine all_alset _ s.networks pack.network _ h ?_
            refine all_alset _ nw.xdcc pack.bot _ (all_alget _ s.networks pack.network nw h hget) ?_
            exact queueOk_append_inactive _ _ (netOk_getD_queueOk nw pack.bot
              (all_alget _ s.networks pack.network nw h hget)) rfl
        · split
          · rename_i hlen
            refine all_alset _ s.networks pack.network _ h ?_
            refine all_alset _ nw.xdcc pack.bot _ (all_alget _ s.networks pack.network nw h hget) ?_
            have hq : (alget nw.xdcc pack.bot).getD [] = [] := by
              cases hc : (alget nw.xdcc pack.bot).getD [] with
              | nil => rfl
              | cons a t =>
                rw [hc] at hlen
                simp at hlen
            rw [hq]
            rfl
          · refine all_alset _ s.networks pack.network _ h ?_
            refine all_alset _ nw.xdcc pack.bot _ (all_alget _ s.networks pack.network nw h hget) ?_
            exact queueOk_append_inactive _ _ (netOk_getD_queueOk nw pack.bot
              (all_alget _ s.networks pack.network nw h hget)) rfl

theorem networksOk_cancelDownload (s : MState) (network bot id : String)
    (h : networksOk s.networks = true) :
    networksOk (cancelDownload s network bot id).1.networks = true := by
  unfold cancelDownload
  cases hget : alget s.networks network with
  | none => exact h
  | some nw =>
    dsimp only
    cases hq : alget nw.xdcc bot with
    | none => exact h
    | some q =>
      dsimp only
      split
      · exact h
      · cases hfind : q.find? (fun p => p.id = id) with
        | none => exact h
        | some req =>
          dsimp only
          cases hx : req.xdcc with
          | none => exact h
          | some hdl =>
            dsimp only
            refine all_alset _ s.networks network _ h ?_
            refine all_alset _ nw.xdcc bot _ (all_alget _ s.networks network nw h hget) ?_
            exact queueOk_filter q _ (all_alget _ nw.xdcc bot q
              (all_alget _ s.networks network nw h hget) hq)

theorem networksOk_xdccComplete (s : MState) (network bot : String)
    (h : networksOk s.networks = true) :
    networksOk (xdccComplete s network bot).1.networks = true := by
  unfold xdccComplete
  cases hget : alget s.networks network with
  | none => exact h
  | some nw =>
    dsimp only
    cases hq : alget nw.xdcc bot with
    | none => exact h
    | some q =>
      cases q with
      | nil => exact h
      | cons r rest =>
        dsimp only
        cases hx : r.xdcc with
        | none => exact h
        | some hdl =>
          dsimp only
          refine all_alset _ s.networks network _ h ?_
          exact netOk_advanceQueue nw bot rest
            (all_alget _ s.networks network nw h hget)
            (all_alget _ nw.xdcc bot _ (all_alget _ s.networks network nw h hget) hq)

theorem networksOk_xdccError (s : MState) (network bot : String)
    (h : networksOk s.networks = true) :
    networksOk (xdccErrorHandler s network bot).1.networks = true := by
  unfold xdccErrorHandler
  cases hget : alget s.networks network with
  | none => exact h
  | some nw =>
    dsimp only
    cases hq : alget nw.xdcc bot with
    | none => exact h
    | some q =>
      cases q with
      | nil => exact h
      | cons r rest =>
        dsimp only
        cases hx : r.xdcc with
        | none => exact h
        | some hdl =>
          dsimp only
          refine networksOk_addDownload _ r.id false ?_
          refine all_alset _ s.networks network _ h ?_
          exact netOk_advanceQueue nw bot rest
            (all_alget _ s.networks network nw h hget)
            (all_alget _ nw.xdcc bot _ (all_alget _ s.networks network nw h hget) hq)

theorem networksOk_xdccProgressCanceled (s : MState) (network bot : String)
    (h : networksOk s.networks = true) :
    networksOk (xdccProgressCanceled s network bot).1.networks = true := by
  unfold xdccProgressCanceled
  cases hget : alget s.networks network with
  | none => exact h
  | some nw =>
    dsimp only
    cases hq : alget nw.xdcc bot with
    | none => exact h
    | some q =>
      dsimp only
      refine all_alset _ s.networks network _ h ?_
      refine netOk_advanceQueue nw bot q.tail
        (all_alget _ s.networks network nw h hget) ?_
      exact queueOk_tail_all q (all_alget _ nw.xdcc bot q
        (all_alget _ s.networks network nw h hget) hq)

theorem networksOk_engineUpdate (s : MState) (network bot : String) (i : Nat)
    (f : Handle → Handle) (h : networksOk s.networks = true) :
    networksOk (engineUpdate s network bot i f).networks = true := by
  unfold engineUpdate
  cases hget : alget s.networks network with
  | none => exact h
  | some nw =>
    dsimp only
    cases hq : alget nw.xdcc bot with
    | none => exact h
    | some q =>
      dsimp only
      refine all_alset _ s.networks network _ h ?_
      refine all_alset _ nw.xdcc bot _ (all_alget _ s.networks network nw h hget) ?_
      exact queueOk_modifyHandle q i f (all_alget _ nw.xdcc bot q
        (all_alget _ s.networks network nw h hget) hq)

theorem step_networksOk {s s' : MState} (h : Step s s')
    (hs : networksOk s.networks = true) : networksOk s'.networks = true := by
  cases h with
  | stepAddNetwork network hostname opts => exact networksOk_addNetwork s network hostname opts hs
  | stepRemoveNetwork network => exact networksOk_removeNetwork s network hs
  | stepAddDownload id dontPersist => exact networksOk_addDownload s id dontPersist hs
  | stepCancelDownload network bot id => exact networksOk_cancelDownload s network bot id hs
  | stepComplete network bot => exact networksOk_xdccComplete s network bot hs
  | stepError network bot => exact networksOk_xdccError s network bot hs
  | stepProgressCanceled network bot => exact networksOk_xdccProgressCanceled s network bot hs
  | stepEngine network bot i f => exact networksOk_engineUpdate s network bot i f hs
  | stepDbChange db2 => exact hs

theorem reachable_networksOk (db : List Pack) (s : MState)
    (h : Relation.ReflTransGen Step (initState db) s) : networksOk s.networks = true := by
  induction h with
  | refl => rfl
  | tail _ hstep ih => exact step_networksOk hstep ih

theorem queueOk_spec (q : List Request) (h : queueOk q = true) :
    (q.filter (fun r => r.active)).length ≤ 1 ∧
      ∀ r ∈ q, r.active = true → q.head? = some r := by
  cases q with
  | nil => exact ⟨by simp, by simp⟩
  | cons r t =>
    have ht : t.filter (fun r => r.active) = [] := by
      rw [List.filter_eq_nil_iff]
      intro a ha
      have := List.all_eq_true.mp h _ ha
      simp at this
      simp [this]
    constructor
    · rw [List.filter_cons]
      split
      · simp [ht]
      · simp [ht]
    · intro x hx hact
      rcases List.mem_cons.mp hx with hxr | hxt
      · subst hxr
        rfl
      · have := List.all_eq_true.mp h _ hxt
        rw [hact] at this
        simp at this

/-- Claim C8: for a mapped record with string `size` and string `sizeUnit`,
the unit letter is matched case-insensitively; k, m, g, t scale the parsed
integer by cumulative multiplications by 1024 (one per tier down to
kilobyte) and delete the unit field; an unrecognized letter leaves the
parsed numeric value unconverted and retains the unit field; in particular
size "100" with unit "K" gives 102400 and size "1" with unit "M" gives
1048576. -/
theorem C8_size_normalization (pd : PackData) (s u : String) (n : Int)
    (hs : pd.size = some (.vstr s)) (hu : pd.sizeUnit = some (.vstr u))
    (hn : parseIntJs s = .vnum n) :
    (strLower u = "k" →
      normalizeSize pd = { pd with size := some (.vnum (n * 1024)), sizeUnit := none }) ∧
    (strLower u = "m" →
      normalizeSize pd = { pd with size := some (.vnum (n * 1024 * 1024)), sizeUnit := none }) ∧
    (strLower u = "g" →
      normalizeSize pd = { pd with size := some (.vnum (n * 1024 * 1024 * 1024)), sizeUnit := none }) ∧
    (strLower u = "t" →
      normalizeSize pd = { pd with size := some (.vnum (n * 1024 * 1024 * 1024 * 1024)), sizeUnit := none }) ∧
    (strLower u ≠ "k" → strLower u ≠ "m" → strLower u ≠ "g" → strLower u ≠ "t" →
      normalizeSize pd = { pd with size := some (.vnum n) }) ∧
    normalizeSize { size := some (.vstr "100"), sizeUnit := some (.vstr "K"), fileName := none }
      = { size := some (.vnum 102400), sizeUnit := none, fileName := none } ∧
    normalizeSize { size := some (.vstr "1"), sizeUnit := some (.vstr "M"), fileName := none }
      = { size := some (.vnum 1048576), sizeUnit := none, fileName := none } := by
  refine ⟨?_, ?_, ?_, ?_, ?_, by decide, by decide⟩
  all_goals intro h
  case _ => simp [normalizeSize, hs, hu, h, hn, jsMul1024]
  case _ => simp [normalizeSize, hs, hu, h, hn, jsMul1024]
  case _ => simp [normalizeSize, hs, hu, h, hn, jsMul1024]
  case _ => simp [normalizeSize, hs, hu, h, hn, jsMul1024]
  case _ =>
    intro h2 h3 h4
    simp [normalizeSize, hs, hu, h, h2, h3, h4, hn]

/-- Witness for C8 at size "3", unit "G". -/
theorem C8_size_normalization_witness :
    normalizeSize { size := some (.vstr "3"), sizeUnit := some (.vstr "G"), fileName := none }
      = { size := some (.vnum (3 * 1024 * 1024 * 1024)), sizeUnit := none, fileName := none } := by
  have h := C8_size_normalization
    { size := some (.vstr "3"), sizeUnit := some (.vstr "G"), fileName := none }
    "3" "G" 3 (by decide) (by decide) (by decide)
  exact h.2.2.1 (by decide)

/-- Claim C9 (divergence evidence): reconstructing `sIrcBug` from its own
snapshot yields a session with the same hostname, command sequence and
channel name set and status reset to "connecting" — but the nickname is
the freshly generated one, not "alice": `toJSON` nests the nick under
`opts` while `fromJSON` only reads the top-level `nick` slot, so the
nickname is not round-tripped. -/
theorem C9_roundtrip_loses_nick :
    SIrc.fromJSON (SIrc.toJSON sIrcBug) "sling1234" = .ok sIrcRebuilt ∧
    sIrcRebuilt.hostname = sIrcBug.hostname ∧
    sIrcRebuilt.commands = sIrcBug.commands ∧
    (sIrcRebuilt.chans.map (fun p => p.1)).reverse = sIrcBug.chans.map (fun p => p.1) ∧
    sIrcRebuilt.status = "connecting" ∧
    sIrcRebuilt.nick ≠ sIrcBug.nick := by
  refine ⟨by rfl, by decide, by decide, by decide, by decide, by decide⟩

theorem alget_alerase_self {α : Type} (m : List (String × α)) (k : String) :
    alget (alerase m k) k = none := by
  induction m with
  | nil => rfl
  | cons hd t ih =>
    obtain ⟨k0, v0⟩ := hd
    by_cases hk : k0 = k
    · simpa [alerase, hk] using ih
    · simpa [alerase, alget, hk] using ih

theorem advanceQueue_nil (nw : NetworkSt) (bot : String) :
    advanceQueue nw bot [] = ({ nw with xdcc := alerase nw.xdcc bot }, []) := rfl

theorem advanceQueue_cons (nw : NetworkSt) (bot : String) (c : Request) (t : List Request) :
    advanceQueue nw bot (c :: t) =
      ({ nw with xdcc := alset nw.xdcc bot ({ c with active := true } :: t) },
       [{ reqId := c.id, kind := .start }]) := by
  unfold advanceQueue
  rw [if_pos (by simp)]
  rfl

theorem startHead_map_toEntry (l : List Request) :
    (startHead l).1.map toEntry = l.map toEntry := by
  cases l with
  | nil => rfl
  | cons c t => rfl

theorem startHead_map_id (l : List Request) :
    (startHead l).1.map Request.id = l.map Request.id := by
  cases l with
  | nil => rfl
  | cons c t => rfl

theorem xdccComplete_eq (s : MState) (network bot : String) (nw : NetworkSt)
    (r : Request) (rest : List Request) (h : Handle)
    (hnw : alget s.networks network = some nw)
    (hq : alget nw.xdcc bot = some (r :: rest))
    (hx : r.xdcc = some h) :
    xdccComplete s network bot =
      ({ s with
          networks := alset s.networks network (advanceQueue nw bot rest).1,
          finished := addFinished s.finished
            { r with notices := h.hnotices, xdcc := none, active := false },
          dl := alset s.dl (dlKey network bot)
            (((alget s.dl (dlKey network bot)).getD []).tail),
          dlSaves := s.dlSaves + 1 },
       (advanceQueue nw bot rest).2) := by
  unfold xdccComplete
  rw [hnw]
  dsimp only
  rw [hq]
  dsimp only
  rw [hx]
  dsimp only [dlShiftSave]

theorem xdccProgressCanceled_eq (s : MState) (network bot : String) (nw : NetworkSt)
    (q : List Request)
    (hnw : alget s.networks network = some nw)
    (hq : alget nw.xdcc bot = some q) :
    xdccProgressCanceled s network bot =
      ({ s with
          networks := alset s.networks network (advanceQueue nw bot q.tail).1,
          dl := alset s.dl (dlKey network bot)
            (((alget s.dl (dlKey network bot)).getD []).tail),
          dlSaves := s.dlSaves + 1 },
       (advanceQueue nw bot q.tail).2) := by
  unfold xdccProgressCanceled
  rw [hnw]
  dsimp only
  rw [hq]
  dsimp only [dlShiftSave]

theorem xdccError_eq (s : MState) (network bot : String) (nw : NetworkSt)
    (r : Request) (rest : List Request) (h : Handle)
    (hnw : alget s.networks network = some nw)
    (hq : alget nw.xdcc bot = some (r :: rest))
    (hx : r.xdcc = some h) :
    xdccErrorHandler s network bot =
      (let s2 : MState :=
        { s with
            networks := alset s.networks network (advanceQueue nw bot rest).1,
            dl := alset s.dl (dlKey network bot)
              (((alget s.dl (dlKey network bot)).getD []).tail),
            dlSaves := s.dlSaves + 1 }
       let re := addDownload s2 r.id false
       (re.1, { reqId := r.id, kind := .kill } :: ((advanceQueue nw bot rest).2 ++ re.2.1))) := by
  unfold xdccErrorHandler
  rw [hnw]
  dsimp only
  rw [hq]
  dsimp only
  rw [hx]
  dsimp only [dlShiftSave]

theorem addDownload_eq (s : MState) (id : String) (dontPersist : Bool)
    (pack : Pack) (nw : NetworkSt) (q : List Request)
    (hfind : s.db.find? (fun p => p.id = id) = some pack)
    (hnw : alget s.networks pack.network = some nw)
    (hq : (alget nw.xdcc pack.bot).getD [] = q)
    (hdup : q.any (fun r => r.id = pack.id) = false) :
    addDownload s id dontPersist =
      (let req : Request := { id := pack.id, network := pack.network, bot := pack.bot,
                              name := pack.name, notices := [], xdcc := some mkHandle,
                              active := false }
       let q2s := if (q ++ [req]).length = 1 then startHead (q ++ [req]) else (q ++ [req], [])
       let s1 : MState :=
         { s with
             networks := alset s.networks pack.network
                           { nw with xdcc := alset nw.xdcc pack.bot q2s.1 } }
       let s2 : MState :=
         if dontPersist then s1
         else
           { s1 with
               dl := alset s1.dl (dlKey pack.network pack.bot)
                       (((alget s1.dl (dlKey pack.network pack.bot)).getD []) ++ [toEntry req]),
               dlSaves := s1.dlSaves + 1 }
       (s2, q2s.2, AddDlRes.ok)) := by
  unfold addDownload
  rw [hfind]
  dsimp only
  rw [hnw]
  dsimp only
  rw [hq, hdup]
  simp

theorem cancelDownload_eq (s : MState) (network bot id : String)
    (nw : NetworkSt) (q : List Request) (req : Request) (h : Handle)
    (hnw : alget s.networks network = some nw)
    (hq : alget nw.xdcc bot = some q)
    (hfind : q.find? (fun p => p.id = id) = some req)
    (hx : req.xdcc = some h) :
    cancelDownload s network bot id =
      ({ s with
           networks := alset s.networks network
                         { nw with
                             xdcc := alset nw.xdcc bot (q.filter (fun p => ¬ (p.id = id))) } },
       [if h.status ≠ "created" then { reqId := req.id, kind := .cancel }
        else { reqId := req.id, kind := .kill }], none) := by
  have hne : q ≠ [] := by
    intro he
    subst he
    simp [List.find?] at hfind
  unfold cancelDownload
  rw [hnw]
  dsimp only
  rw [hq]
  dsimp only
  rw [if_neg (fun hc => hne (List.length_eq_zero.mp hc))]
  rw [hfind]
  dsimp only
  rw [hx]

/-- Claim C1: in every reachable manager state, every (network, bot)
transfer queue has at most one active request (one that received "start"
and no terminal event yet), and an active request is the queue head. -/
theorem C1_at_most_one_active (db : List Pack) (s : MState)
    (h : Relation.ReflTransGen Step (initState db) s)
    (nm : String) (nw : NetworkSt) (hnw : alget s.networks nm = some nw)
    (bot : String) (q : List Request) (hq : alget nw.xdcc bot = some q) :
    (q.filter (fun r => r.active)).length ≤ 1 ∧
      ∀ r ∈ q, r.active = true → q.head? = some r := by
  have hok := reachable_networksOk db s h
  have h1 : netOk nw = true := all_alget _ s.networks nm nw hok hnw
  have h2 : queueOk q = true := all_alget _ nw.xdcc bot q h1 hq
  exact queueOk_spec q h2

/-- Witness for C1: a two-element queue reached by registering a network
and enqueueing two packs. -/
theorem C1_at_most_one_active_witness :
    (qW.filter (fun r => r.active)).length ≤ 1 ∧
      ∀ r ∈ qW, r.active = true → qW.head? = some r :=
  C1_at_most_one_active dbW sW3
    (Relation.ReflTransGen.tail
      (Relation.ReflTransGen.tail
        (Relation.ReflTransGen.tail Relation.ReflTransGen.refl
          (Step.stepAddNetwork (initState dbW) (.vstr "rizon") "irc.rizon.net" optsW))
        (Step.stepAddDownload sW1 "rizon:gimme:1" false))
      (Step.stepAddDownload sW2 "rizon:gimme:2" false))
    "rizon" nwW (by rfl) "gimme" qW (by rfl)

/-- Claim C2: a complete event for the head request of a (network, bot)
queue puts that request exactly once into the finished set with its
notices copied from the transfer handle and its handle reference released;
the request is gone from the queue, which was popped exactly once — the
new head (if any) gets the start signal, otherwise the per-bot entry is
deleted — and the persisted pending-list loses its head and is saved. -/
theorem C2_complete_event (s : MState) (network bot : String) (nw : NetworkSt)
    (r : Request) (rest : List Request) (h : Handle)
    (hnw : alget s.networks network = some nw)
    (hq : alget nw.xdcc bot = some (r :: rest))
    (hx : r.xdcc = some h)
    (hfin : { r with notices := h.hnotices, xdcc := none, active := false } ∉ s.finished)
    (hid : r.id ∉ rest.map Request.id) :
    (xdccComplete s network bot).1.finished.count
        { r with notices := h.hnotices, xdcc := none, active := false } = 1 ∧
    ({ r with notices := h.hnotices, xdcc := none, active := false }).notices = h.hnotices ∧
    ({ r with notices := h.hnotices, xdcc := none, active := false }).xdcc = none ∧
    alget (xdccComplete s network bot).1.networks network
        = some (advanceQueue nw bot rest).1 ∧
    (rest = [] → alget (advanceQueue nw bot rest).1.xdcc bot = none ∧
      (xdccComplete s network bot).2 = []) ∧
    (∀ c t, rest = c :: t →
      alget (advanceQueue nw bot rest).1.xdcc bot = some ({ c with active := true } :: t) ∧
      (xdccComplete s network bot).2 = [{ reqId := c.id, kind := .start }]) ∧
    (∀ x ∈ (alget (advanceQueue nw bot rest).1.xdcc bot).getD [], ¬ (x.id = r.id)) ∧
    alget (xdccComplete s network bot).1.dl (dlKey network bot)
      = some (((alget s.dl (dlKey network bot)).getD []).tail) ∧
    (xdccComplete s network bot).1.dlSaves = s.dlSaves + 1 := by
  have hceq := xdccComplete_eq s network bot nw r rest h hnw hq hx
  refine ⟨?_, rfl, rfl, ?_, ?_, ?_, ?_, ?_, ?_⟩
  · rw [hceq]
    dsimp only
    simp only [addFinished]
    rw [if_neg hfin, List.count_append, List.count_eq_zero.mpr hfin]
    simp
  · rw [hceq]
    exact alget_alset_self _ network _
  · intro hrest
    subst hrest
    rw [advanceQueue_nil]
    exact ⟨alget_alerase_self _ bot, by rw [hceq]; rfl⟩
  · intro c t hrest
    subst hrest
    rw [advanceQueue_cons]
    refine ⟨alget_alset_self _ bot _, ?_⟩
    rw [hceq, advanceQueue_cons]
  · intro x hxmem hxid
    cases rest with
    | nil =>
      rw [advanceQueue_nil] at hxmem
      simp only [alget_alerase_self, Option.getD_none] at hxmem
      cases hxmem
    | cons c t =>
      rw [advanceQueue_cons] at hxmem
      simp only [alget_alset_self, Option.getD_some] at hxmem
      apply hid
      rcases List.mem_cons.mp hxmem with hxc | hxt
      · refine List.mem_map.mpr ⟨c, List.mem_cons_self c t, ?_⟩
        rw [← hxid, hxc]
      · exact List.mem_map.mpr ⟨x, List.mem_cons_of_mem c hxt, hxid⟩
  · rw [hceq]
    exact alget_alset_self _ _ _
  · rw [hceq]

/-- Witness for C2: completing the active head of the two-element witness
queue puts it into the finished set exactly once. -/
theorem C2_complete_event_witness :
    (xdccComplete sW3 "rizon" "gimme").1.finished.count
        { qW.headD reqFallback with notices := mkHandle.hnotices,
                                    xdcc := none,
                                    active := false } = 1 :=
  (C2_complete_event sW3 "rizon" "gimme" nwW (qW.headD reqFallback) qW.tail mkHandle
    (by rfl) (by rfl) (by rfl) (by decide) (by decide)).1

theorem xdccError_spec (s : MState) (network bot : String) (nw : NetworkSt)
    (r : Request) (rest : List Request) (h : Handle) (p : Pack)
    (hnw : alget s.networks network = some nw)
    (hq : alget nw.xdcc bot = some (r :: rest))
    (hx : r.xdcc = some h)
    (hfind : s.db.find? (fun pk => pk.id = r.id) = some p)
    (hpn : p.network = network) (hpb : p.bot = bot)
    (hid : r.id ∉ rest.map Request.id) :
    p.id = r.id ∧
    (xdccErrorHandler s network bot).1.finished = s.finished ∧
    (rest = [] → ∃ nwF,
      alget (xdccErrorHandler s network bot).1.networks network = some nwF ∧
      alget nwF.xdcc bot = some
        [{ id := p.id, network := p.network, bot := p.bot, name := p.name,
           notices := [], xdcc := some mkHandle, active := true }] ∧
      (xdccErrorHandler s network bot).2 =
        [{ reqId := r.id, kind := .kill }, { reqId := p.id, kind := .start }]) ∧
    (∀ c t, rest = c :: t → ∃ nwF,
      alget (xdccErrorHandler s network bot).1.networks network = some nwF ∧
      alget nwF.xdcc bot = some
        (({ c with active := true } :: t) ++
          [{ id := p.id, network := p.network, bot := p.bot, name := p.name,
             notices := [], xdcc := some mkHandle, active := false }]) ∧
      (xdccErrorHandler s network bot).2 =
        [{ reqId := r.id, kind := .kill }, { reqId := c.id, kind := .start }]) ∧
    alget (xdccErrorHandler s network bot).1.dl (dlKey network bot) =
      some ((((alget s.dl (dlKey network bot)).getD []).tail) ++
        [{ pack := p.id, name := p.name }]) ∧
    (xdccErrorHandler s network bot).1.dlSaves = s.dlSaves + 2 := by
  subst hpn
  subst hpb
  have hpid : p.id = r.id := by
    have := List.find?_some hfind
    simpa using this
  have herr := xdccError_eq s p.network p.bot nw r rest h hnw hq hx
  dsimp only at herr
  cases rest with
  | nil =>
    rw [advanceQueue_nil] at herr
    dsimp only at herr
    have haddeq := addDownload_eq
      { s with
          networks := alset s.networks p.network { nw with xdcc := alerase nw.xdcc p.bot },
          dl := alset s.dl (dlKey p.network p.bot)
            (((alget s.dl (dlKey p.network p.bot)).getD []).tail),
          dlSaves := s.dlSaves + 1 }
      r.id false p { nw with xdcc := alerase nw.xdcc p.bot } []
      hfind (alget_alset_self _ p.network _) (by rw [alget_alerase_self]; rfl) rfl
    simp only [List.nil_append, List.length_singleton, eq_self_iff_true, if_true,
      Bool.false_eq_true, if_false, startHead] at haddeq
    refine ⟨hpid, ?_, ?_, ?_, ?_, ?_⟩
    · rw [herr, haddeq]
    · intro _
      refine ⟨{ nw with
                  xdcc := alset (alerase nw.xdcc p.bot) p.bot
                            [{ id := p.id, network := p.network, bot := p.bot,
                               name := p.name, notices := [], xdcc := some mkHandle,
                               active := true }] },
                ?_, ?_, ?_⟩
      · rw [herr, haddeq]
        exact alget_alset_self _ p.network _
      · dsimp only
        exact alget_alset_self _ p.bot _
      · rw [herr, haddeq]
        simp
    · intro c t hct
      simp at hct
    · rw [herr, haddeq]
      dsimp only
      rw [alget_alset_self]
      rw [alget_alset_self]
      rfl
    · rw [herr, haddeq]
  | cons c t =>
    rw [advanceQueue_cons] at herr
    dsimp only at herr
    have hdup : (({ c with active := true } :: t).any (fun x => x.id = r.id)) = false := by
      rw [List.any_eq_false]
      intro x hx2
      simp only [decide_eq_true_eq]
      intro hxr
      apply hid
      rcases List.mem_cons.mp hx2 with hxc | hxt
      · refine List.mem_map.mpr ⟨c, List.mem_cons_self c t, ?_⟩
        rw [← hxr, hxc]
      · exact List.mem_map.mpr ⟨x, List.mem_cons_of_mem c hxt, hxr⟩
    have haddeq := addDownload_eq
      { s with
          networks := alset s.networks p.network
            { nw with xdcc := alset nw.xdcc p.bot ({ c with active := true } :: t) },
          dl := alset s.dl (dlKey p.network p.bot)
            (((alget s.dl (dlKey p.network p.bot)).getD []).tail),
          dlSaves := s.dlSaves + 1 }
      r.id false p { nw with xdcc := alset nw.xdcc p.bot ({ c with active := true } :: t) }
      ({ c with active := true } :: t)
      hfind (alget_alset_self _ p.network _) (by rw [alget_alset_self]; rfl)
      (by rw [hpid]; exact hdup)
    dsimp only at haddeq
    have hlen1 : ¬ (((({ c with active := true } : Request) :: t) ++
        [({ id := p.id, network := p.network, bot := p.bot, name := p.name,
            notices := [], xdcc := some mkHandle, active := false } : Request)]).length = 1) := by
      simp
    rw [if_neg hlen1] at haddeq
    simp only [Bool.false_eq_true, if_false] at haddeq
    refine ⟨hpid, ?_, ?_, ?_, ?_, ?_⟩
    · rw [herr, haddeq]
    · intro hct
      simp at hct
    · intro c2 t2 hct
      obtain ⟨hc, ht⟩ : c2 = c ∧ t2 = t := by
        cases hct
        exact ⟨rfl, rfl⟩
      subst hc
      subst ht
      refine ⟨{ nw with
                  xdcc := alset (alset nw.xdcc p.bot ({ c2 with active := true } :: t2))
                            p.bot
                            (({ c2 with active := true } :: t2) ++
                              [{ id := p.id, network := p.network, bot := p.bot,
                                 name := p.name, notices := [], xdcc := some mkHandle,
                                 active := false }]) },
                ?_, ?_, ?_⟩
      · rw [herr, haddeq]
        exact alget_alset_self _ p.network _
      · dsimp only
        exact alget_alset_self _ p.bot _
      · rw [herr, haddeq]
        simp
    · rw [herr, haddeq]
      dsimp only
      rw [alget_alset_self]
      rw [alget_alset_self]
      rfl
    · rw [herr, haddeq]

/-- Claim C3: an error event for the head request of a (network, bot)
queue pops the head, sends its handle a kill signal, and re-submits its id
via addDownload: the request id reappears in its transfer queue appended
at the back (freshly rebuilt from the document-store pack), it is not in
the finished set, the queue advances exactly once (the new head gets the
start signal when present, otherwise the per-bot entry is deleted and the
requeued request itself is started), and the persisted pending-list loses
its head, gains the re-submitted entry at the back, and is saved. -/
theorem C3_error_event (s : MState) (network bot : String) (nw : NetworkSt)
    (r : Request) (rest : List Request) (h : Handle) (p : Pack)
    (hnw : alget s.networks network = some nw)
    (hq : alget nw.xdcc bot = some (r :: rest))
    (hx : r.xdcc = some h)
    (hfind : s.db.find? (fun pk => pk.id = r.id) = some p)
    (hpn : p.network = network) (hpb : p.bot = bot)
    (hid : r.id ∉ rest.map Request.id)
    (hfin : r.id ∉ s.finished.map Request.id) :
    p.id = r.id ∧
    (xdccErrorHandler s network bot).1.finished = s.finished ∧
    r.id ∉ (xdccErrorHandler s network bot).1.finished.map Request.id ∧
    (rest = [] → ∃ nwF,
      alget (xdccErrorHandler s network bot).1.networks network = some nwF ∧
      alget nwF.xdcc bot = some
        [{ id := p.id, network := p.network, bot := p.bot, name := p.name,
           notices := [], xdcc := some mkHandle, active := true }] ∧
      (xdccErrorHandler s network bot).2 =
        [{ reqId := r.id, kind := .kill }, { reqId := p.id, kind := .start }]) ∧
    (∀ c t, rest = c :: t → ∃ nwF,
      alget (xdccErrorHandler s network bot).1.networks network = some nwF ∧
      alget nwF.xdcc bot = some
        (({ c with active := true } :: t) ++
          [{ id := p.id, network := p.network, bot := p.bot, name := p.name,
             notices := [], xdcc := some mkHandle, active := false }]) ∧
      (xdccErrorHandler s network bot).2 =
        [{ reqId := r.id, kind := .kill }, { reqId := c.id, kind := .start }]) ∧
    alget (xdccErrorHandler s network bot).1.dl (dlKey network bot) =
      some ((((alget s.dl (dlKey network bot)).getD []).tail) ++
        [{ pack := p.id, name := p.name }]) ∧
    (xdccErrorHandler s network bot).1.dlSaves = s.dlSaves + 2 := by
  obtain ⟨hpid, hfe, hnil, hcons, hdl, hsaves⟩ :=
    xdccError_spec s network bot nw r rest h p hnw hq hx hfind hpn hpb hid
  exact ⟨hpid, hfe, by rw [hfe]; exact hfin, hnil, hcons, hdl, hsaves⟩

/-- Witness for C3: an error on the active head of the two-element witness
queue kills it, starts the second request, and re-appends the failed id at
the back of the queue. -/
theorem C3_error_event_witness :
    ∃ nwF,
      alget (xdccErrorHandler sW3 "rizon" "gimme").1.networks "rizon" = some nwF ∧
      alget nwF.xdcc "gimme" = some
        (({ qW.getLastD reqFallback with active := true } :: []) ++
          [{ id := (dbW.headD { id := "", network := "", bot := "", name := "" }).id,
             network := "rizon", bot := "gimme",
             name := (dbW.headD { id := "", network := "", bot := "", name := "" }).name,
             notices := [], xdcc := some mkHandle, active := false }]) ∧
      (xdccErrorHandler sW3 "rizon" "gimme").2 =
        [{ reqId := "rizon:gimme:1", kind := .kill },
         { reqId := (qW.getLastD reqFallback).id, kind := .start }] := by
  have hc := (C3_error_event sW3 "rizon" "gimme" nwW (qW.headD reqFallback)
    [qW.getLastD reqFallback] mkHandle
    (dbW.headD { id := "", network := "", bot := "", name := "" })
    (by rfl) (by rfl) (by rfl) (by rfl) (by rfl) (by rfl) (by decide)
    (by decide)).2.2.2.2.1 (qW.getLastD reqFallback) [] rfl
  obtain ⟨nwF, h1, h2, h3⟩ := hc
  exact ⟨nwF, h1, h2, by rw [h3]; rfl⟩

theorem advance_queue_map (nw : NetworkSt) (bot : String) (rest : List Request) :
    ((alget (advanceQueue nw bot rest).1.xdcc bot).getD []).map toEntry
      = rest.map toEntry := by
  cases rest with
  | nil =>
    rw [advanceQueue_nil]
    dsimp only
    rw [alget_alerase_self]
    rfl
  | cons c t =>
    rw [advanceQueue_cons]
    dsimp only
    rw [alget_alset_self]
    rfl

theorem map_tail_toEntry (q : List Request) :
    (q.map toEntry).tail = q.tail.map toEntry := by
  cases q <;> rfl

/-- Claim C4 counterexample: at the concrete one-request witness state the
pending-list is in sync with the queue; cancelDownload then succeeds and
mutates the queue, but the persisted pending-list is left untouched and
not saved — out of sync with the remaining (empty) queue — refuting the
claim that every queue mutation, including cancelDownload, re-persists the
pending-list. -/
theorem C4_cancel_not_persisted :
    dlSynced sW2 "rizon" "gimme" ∧
    (cancelDownload sW2 "rizon" "gimme" "rizon:gimme:1").2.2 = none ∧
    (cancelDownload sW2 "rizon" "gimme" "rizon:gimme:1").1.dl = sW2.dl ∧
    (cancelDownload sW2 "rizon" "gimme" "rizon:gimme:1").1.dlSaves = sW2.dlSaves ∧
    ¬ dlSynced (cancelDownload sW2 "rizon" "gimme" "rizon:gimme:1").1 "rizon" "gimme" := by
  refine ⟨by rfl, by rfl, by rfl, by rfl, ?_⟩
  unfold dlSynced
  decide

/-- Claim C4 (amended): after an enqueue by addDownload with persistence
on, and after each terminal head-pop (complete, error, canceled-progress),
the persisted pending-list for the (network, bot) pair again equals the
ordered entries of the remaining queued requests and is saved (the error
path saves twice: the head shift and the re-submission); cancelDownload,
however, performs no persistence: it leaves the stored pending-list and
the save counter untouched. -/
theorem C4_persistence :
    (∀ s id pack nw q, s.db.find? (fun p => p.id = id) = some pack →
      alget s.networks pack.network = some nw →
      (alget nw.xdcc pack.bot).getD [] = q →
      q.any (fun r => r.id = pack.id) = false →
      dlSynced s pack.network pack.bot →
      dlSynced (addDownload s id false).1 pack.network pack.bot ∧
        (addDownload s id false).1.dlSaves = s.dlSaves + 1) ∧
    (∀ s network bot nw r rest h, alget s.networks network = some nw →
      alget nw.xdcc bot = some (r :: rest) → r.xdcc = some h →
      dlSynced s network bot →
      dlSynced (xdccComplete s network bot).1 network bot ∧
        (xdccComplete s network bot).1.dlSaves = s.dlSaves + 1) ∧
    (∀ s network bot nw q, alget s.networks network = some nw →
      alget nw.xdcc bot = some q →
      dlSynced s network bot →
      dlSynced (xdccProgressCanceled s network bot).1 network bot ∧
        (xdccProgressCanceled s network bot).1.dlSaves = s.dlSaves + 1) ∧
    (∀ s network bot nw r rest h p, alget s.networks network = some nw →
      alget nw.xdcc bot = some (r :: rest) → r.xdcc = some h →
      s.db.find? (fun pk => pk.id = r.id) = some p →
      p.network = network → p.bot = bot →
      r.id ∉ rest.map Request.id →
      dlSynced s network bot →
      dlSynced (xdccErrorHandler s network bot).1 network bot ∧
        (xdccErrorHandler s network bot).1.dlSaves = s.dlSaves + 2) ∧
    (∀ s network bot id nw q req h, alget s.networks network = some nw →
      alget nw.xdcc bot = some q →
      q.find? (fun p2 => p2.id = id) = some req → req.xdcc = some h →
      (cancelDownload s network bot id).1.dl = s.dl ∧
        (cancelDownload s network bot id).1.dlSaves = s.dlSaves) := by
  refine ⟨?_, ?_, ?_, ?_, ?_⟩
  · intro s id pack nw q hfind hnw hq hdup hsync
    have haddeq := addDownload_eq s id false pack nw q hfind hnw hq hdup
    dsimp only at haddeq
    simp only [Bool.false_eq_true, if_false] at haddeq
    unfold dlSynced at hsync
    rw [hnw] at hsync
    dsimp only at hsync
    rw [hq] at hsync
    constructor
    · unfold dlSynced
      rw [haddeq]
      simp only [alget_alset_self, Option.getD_some]
      rw [← hsync]
      split
      · rw [startHead_map_toEntry, List.map_append]
        rfl
      · rw [List.map_append]
        rfl
    · rw [haddeq]
  · intro s network bot nw r rest h hnw hq hx hsync
    have hceq := xdccComplete_eq s network bot nw r rest h hnw hq hx
    unfold dlSynced at hsync
    rw [hnw] at hsync
    dsimp only at hsync
    rw [hq] at hsync
    constructor
    · unfold dlSynced
      rw [hceq]
      simp only [alget_alset_self, Option.getD_some]
      rw [advance_queue_map, ← hsync]
      rfl
    · rw [hceq]
  · intro s network bot nw q hnw hq hsync
    have hpeq := xdccProgressCanceled_eq s network bot nw q hnw hq
    unfold dlSynced at hsync
    rw [hnw] at hsync
    dsimp only at hsync
    rw [hq] at hsync
    constructor
    · unfold dlSynced
      rw [hpeq]
      simp only [alget_alset_self, Option.getD_some]
      rw [advance_queue_map, ← hsync, map_tail_toEntry]
      rfl
    · rw [hpeq]
  · intro s network bot nw r rest h p hnw hq hx hfind hpn hpb hid hsync
    obtain ⟨hpid, hfe, hnil, hcons, hdl, hsaves⟩ :=
      xdccError_spec s network bot nw r rest h p hnw hq hx hfind hpn hpb hid
    unfold dlSynced at hsync
    rw [hnw] at hsync
    dsimp only at hsync
    rw [hq] at hsync
    refine ⟨?_, hsaves⟩
    unfold dlSynced
    cases rest with
    | nil =>
      obtain ⟨nwF, h1, h2, _⟩ := hnil rfl
      rw [h1]
      dsimp only
      rw [h2, hdl]
      simp only [Option.getD_some]
      rw [← hsync]
      rfl
    | cons c t =>
      obtain ⟨nwF, h1, h2, _⟩ := hcons c t rfl
      rw [h1]
      dsimp only
      rw [h2, hdl]
      simp only [Option.getD_some]
      rw [List.map_append, ← hsync]
      rfl
  · intro s network bot id nw q req h hnw hq hfind hx
    have hceq := cancelDownload_eq s network bot id nw q req h hnw hq hfind hx
    rw [hceq]
    exact ⟨rfl, rfl⟩

/-- Witness for C4 (amended): each branch applied at the concrete witness
states — enqueue into the empty "gimme" queue, complete and
canceled-progress and error on the two-element queue, and a cancel that
leaves the persisted state untouched. -/
theorem C4_persistence_witness :
    (dlSynced (addDownload sW1 "rizon:gimme:1" false).1 "rizon" "gimme" ∧
      (addDownload sW1 "rizon:gimme:1" false).1.dlSaves = sW1.dlSaves + 1) ∧
    (dlSynced (xdccComplete sW3 "rizon" "gimme").1 "rizon" "gimme" ∧
      (xdccComplete sW3 "rizon" "gimme").1.dlSaves = sW3.dlSaves + 1) ∧
    (dlSynced (xdccProgressCanceled sW3 "rizon" "gimme").1 "rizon" "gimme" ∧
      (xdccProgressCanceled sW3 "rizon" "gimme").1.dlSaves = sW3.dlSaves + 1) ∧
    (dlSynced (xdccErrorHandler sW3 "rizon" "gimme").1 "rizon" "gimme" ∧
      (xdccErrorHandler sW3 "rizon" "gimme").1.dlSaves = sW3.dlSaves + 2) ∧
    ((cancelDownload sW3 "rizon" "gimme" "rizon:gimme:2").1.dl = sW3.dl ∧
      (cancelDownload sW3 "rizon" "gimme" "rizon:gimme:2").1.dlSaves = sW3.dlSaves) :=
  ⟨C4_persistence.1 sW1 "rizon:gimme:1"
     (dbW.headD { id := "", network := "", bot := "", name := "" })
     { xdcc := [], connected := true } [] (by rfl) (by rfl) (by rfl) (by rfl) (by rfl),
   C4_persistence.2.1 sW3 "rizon" "gimme" nwW (qW.headD reqFallback)
     [qW.getLastD reqFallback] mkHandle (by rfl) (by rfl) (by rfl) (by rfl),
   C4_persistence.2.2.1 sW3 "rizon" "gimme" nwW qW (by rfl) (by rfl) (by rfl),
   C4_persistence.2.2.2.1 sW3 "rizon" "gimme" nwW (qW.headD reqFallback)
     [qW.getLastD reqFallback] mkHandle
     (dbW.headD { id := "", network := "", bot := "", name := "" })
     (by rfl) (by rfl) (by rfl) (by rfl) (by rfl) (by rfl) (by decide) (by rfl),
   C4_persistence.2.2.2.2 sW3 "rizon" "gimme" "rizon:gimme:2" nwW qW
     (qW.getLastD reqFallback) mkHandle (by rfl) (by rfl) (by decide) (by rfl)⟩

/-- Claim C5: removeNetwork fails on an unknown name, and fails with
"downloads pending" when any transfer queue of that network is non-empty;
on such a failure nothing is mutated — the state (registry, sessions,
persisted configuration) is returned unchanged. -/
theorem C5_remove_network_guard (s : MState) (network : String) :
    (alget s.networks network = none →
      removeNetwork s network = (s, some "unknown network")) ∧
    (∀ nw bot q, alget s.networks network = some nw →
      alget nw.xdcc bot = some q → q ≠ [] →
      removeNetwork s network = (s, some "downloads pending")) := by
  constructor
  · intro h
    unfold removeNetwork
    rw [h]
  · intro nw bot q hnw hq hne
    unfold removeNetwork
    rw [hnw]
    dsimp only
    rw [if_pos (List.length_pos.mpr (alget_ne_nil hq))]

/-- Witness for C5: an unknown name and a network with a pending download
both make removeNetwork fail without touching the state. -/
theorem C5_remove_network_guard_witness :
    removeNetwork sW3 "efnet" = (sW3, some "unknown network") ∧
    removeNetwork sW3 "rizon" = (sW3, some "downloads pending") :=
  ⟨(C5_remove_network_guard sW3 "efnet").1 (by rfl),
   (C5_remove_network_guard sW3 "rizon").2 nwW "gimme" qW (by rfl) (by rfl) (by decide)⟩

/-- Claim C6 counterexample: the claim requires addNetwork to fail when
the name is not a NON-EMPTY string, but the source only checks lodash
`isString`, so the empty-string name is accepted and registered. -/
theorem C6_empty_name_accepted :
    (addNetwork (initState []) (.vstr "") "irc.example.net" optsW).2 = none ∧
    alget (addNetwork (initState []) (.vstr "") "irc.example.net" optsW).1.networks ""
      = some { xdcc := [], connected := true } := by
  exact ⟨rfl, rfl⟩

/-- Claim C6 (amended): addNetwork fails when the name is not a string —
the empty string is a string and is accepted — or when it is already
registered; the duplicate-name failure leaves the registry and the
registered network unmodified; otherwise the network is registered and its
hostname/options configuration is persisted. -/
theorem C6_add_network (s : MState) (network : JsVal) (hostname : String) (opts : IrcOpts) :
    (network.isString = false →
      addNetwork s network hostname opts = (s, some "network must a string")) ∧
    (∀ nm nw, network = .vstr nm → alget s.networks nm = some nw →
      addNetwork s network hostname opts = (s, some "network name not unique")) ∧
    (∀ nm, network = .vstr nm → alget s.networks nm = none →
      (addNetwork s network hostname opts).2 = none ∧
      alget (addNetwork s network hostname opts).1.networks nm
        = some { xdcc := [], connected := true } ∧
      alget (addNetwork s network hostname opts).1.nwConf nm
        = some { hostname := hostname, opts := opts } ∧
      (addNetwork s network hostname opts).1.nwSaves = s.nwSaves + 1) := by
  refine ⟨?_, ?_, ?_⟩
  · intro h
    cases network with
    | vstr nm => simp [JsVal.isString] at h
    | vnum n => rfl
    | vnan => rfl
    | vundef => rfl
  · intro nm nw hvs hnw
    subst hvs
    unfold addNetwork
    dsimp only
    rw [if_pos (by rw [hnw]; rfl)]
  · intro nm hvs hnone
    subst hvs
    unfold addNetwork
    dsimp only
    rw [if_neg (by rw [hnone]; simp)]
    exact ⟨rfl, alget_alset_self _ nm _, alget_alset_self _ nm _, rfl⟩

/-- Witness for C6 (amended): a numeric name fails, re-registering "rizon"
fails leaving the state unchanged, and registering a fresh name succeeds
and persists its configuration. -/
theorem C6_add_network_witness :
    addNetwork sW1 (.vnum 7) "h" optsW = (sW1, some "network must a string") ∧
    addNetwork sW1 (.vstr "rizon") "h" optsW = (sW1, some "network name not unique") ∧
    ((addNetwork sW1 (.vstr "efnet") "irc.efnet.org" optsW).2 = none ∧
      alget (addNetwork sW1 (.vstr "efnet") "irc.efnet.org" optsW).1.networks "efnet"
        = some { xdcc := [], connected := true } ∧
      alget (addNetwork sW1 (.vstr "efnet") "irc.efnet.org" optsW).1.nwConf "efnet"
        = some { hostname := "irc.efnet.org", opts := optsW } ∧
      (addNetwork sW1 (.vstr "efnet") "irc.efnet.org" optsW).1.nwSaves = sW1.nwSaves + 1) :=
  ⟨(C6_add_network sW1 (.vnum 7) "h" optsW).1 rfl,
   (C6_add_network sW1 (.vstr "rizon") "h" optsW).2.1 "rizon"
     ((alget sW1.networks "rizon").getD { xdcc := [], connected := true }) rfl (by rfl),
   (C6_add_network sW1 (.vstr "efnet") "irc.efnet.org" optsW).2.2 "efnet" rfl (by rfl)⟩

theorem length_filter_ne_id (q : List Request) (id : String)
    (h1 : (q.map Request.id).count id = 1) :
    (q.filter (fun p => ¬ (p.id = id))).length + 1 = q.length := by
  induction q with
  | nil => simp at h1
  | cons a t ih =>
    rw [List.map_cons, List.count_cons] at h1
    by_cases ha : a.id = id
    · have ht : (t.map Request.id).count id = 0 := by
        rw [if_pos (by simpa using ha)] at h1
        omega
      have hfilter : t.filter (fun p => ¬ (p.id = id)) = t := by
        rw [List.filter_eq_self]
        intro x hx
        have hxid : ¬ (x.id = id) := by
          intro he
          have hmem : id ∈ t.map Request.id := List.mem_map.mpr ⟨x, hx, he⟩
          rw [List.count_eq_zero] at ht
          exact ht hmem
        simpa using hxid
      rw [List.filter_cons, if_neg (by simpa using ha), hfilter]
      simp
    · have ht : (t.map Request.id).count id = 1 := by
        rw [if_neg (by simpa using ha)] at h1
        omega
      have := ih ht
      rw [List.filter_cons, if_pos (by simpa using ha)]
      simp only [List.length_cons]
      omega

/-- Claim C7: cancelDownload fails on an unknown network, a missing or
empty per-bot queue, or an absent pack id, each failure leaving the state
unchanged; on success it removes exactly the request with that id, emits
one "cancel" to that request's handle exactly when the request is the
active head already past the "created" phase (under the engine-side fact
that only a started, hence head, request leaves "created") and one "kill"
otherwise, and never emits a start signal — no queue advancement. -/
theorem C7_cancel_download (s : MState) (network bot id : String) :
    (alget s.networks network = none →
      cancelDownload s network bot id = (s, [], some "Network not found")) ∧
    (∀ nw, alget s.networks network = some nw → alget nw.xdcc bot = none →
      cancelDownload s network bot id = (s, [], some "No download pending from bot")) ∧
    (∀ nw q, alget s.networks network = some nw → alget nw.xdcc bot = some q →
      q.find? (fun p => p.id = id) = none →
      (cancelDownload s network bot id).1 = s ∧
      ((cancelDownload s network bot id).2.2).isSome = true) ∧
    (∀ nw q req h, alget s.networks network = some nw → alget nw.xdcc bot = some q →
      q.find? (fun p => p.id = id) = some req → req.xdcc = some h →
      (∀ x ∈ q.tail, ∀ hx, x.xdcc = some hx → hx.status = "created") →
      (q.map Request.id).count id ≤ 1 →
      ∃ k, cancelDownload s network bot id =
          ({ s with
               networks := alset s.networks network
                             { nw with
                                 xdcc := alset nw.xdcc bot
                                           (q.filter (fun p => ¬ (p.id = id))) } },
           [{ reqId := req.id, kind := k }], none) ∧
        (k = SigKind.cancel ↔ (q.head? = some req ∧ h.status ≠ "created")) ∧
        k ≠ SigKind.start ∧
        req ∉ q.filter (fun p => ¬ (p.id = id)) ∧
        (q.filter (fun p => ¬ (p.id = id))).length + 1 = q.length) := by
  refine ⟨?_, ?_, ?_, ?_⟩
  · intro hnone
    unfold cancelDownload
    rw [hnone]
  · intro nw hnw hqnone
    unfold cancelDownload
    rw [hnw]
    dsimp only
    rw [hqnone]
  · intro nw q hnw hq hfind
    unfold cancelDownload
    rw [hnw]
    dsimp only
    rw [hq]
    dsimp only
    by_cases hlen : q.length = 0
    · rw [if_pos hlen]
      exact ⟨rfl, rfl⟩
    · rw [if_neg hlen, hfind]
      exact ⟨rfl, rfl⟩
  · intro nw q req h hnw hq hfind hx hcreated hcount
    have hreqid : req.id = id := by
      have := List.find?_some hfind
      simpa using this
    have hmemq : req ∈ q := List.mem_of_find?_eq_some hfind
    have hcount1 : (q.map Request.id).count id = 1 := by
      have hpos : 0 < (q.map Request.id).count id :=
        List.count_pos_iff.mpr (List.mem_map.mpr ⟨req, hmemq, hreqid⟩)
      omega
    have hceq := cancelDownload_eq s network bot id nw q req h hnw hq hfind hx
    refine ⟨if h.status ≠ "created" then SigKind.cancel else SigKind.kill, ?_, ?_, ?_, ?_, ?_⟩
    · rw [hceq]
      by_cases hst : h.status ≠ "created"
      · rw [if_pos hst, if_pos hst]
      · rw [if_neg hst, if_neg hst]
    · constructor
      · intro hk
        by_cases hst : h.status ≠ "created"
        · refine ⟨?_, hst⟩
          cases q with
          | nil => cases hmemq
          | cons a t =>
            rcases List.mem_cons.mp hmemq with hra | hrt
            · rw [hra]
              rfl
            · exact absurd (hcreated req hrt h hx) hst
        · rw [if_neg hst] at hk
          cases hk
      · intro ⟨hhead, hst⟩
        exact if_pos hst
    · by_cases hst : h.status ≠ "created"
      · rw [if_pos hst]
        intro hc
        cases hc
      · rw [if_neg hst]
        intro hc
        cases hc
    · intro hmem
      have := (List.mem_filter.mp hmem).2
      simp at this
      exact this hreqid
    · exact length_filter_ne_id q id hcount1

/-- Witness for C7: concrete failures on the witness states and a
successful cancel of the queued (non-head) second request, which gets a
"kill". -/
theorem C7_cancel_download_witness :
    cancelDownload sW3 "efnet" "gimme" "rizon:gimme:2"
      = (sW3, [], some "Network not found") ∧
    cancelDownload sW3 "rizon" "zipbot" "rizon:gimme:2"
      = (sW3, [], some "No download pending from bot") ∧
    ((cancelDownload sW3 "rizon" "gimme" "rizon:gimme:9").1 = sW3 ∧
      ((cancelDownload sW3 "rizon" "gimme" "rizon:gimme:9").2.2).isSome = true) ∧
    ∃ k, cancelDownload sW3 "rizon" "gimme" "rizon:gimme:2"
        = ({ sW3 with
               networks := alset sW3.networks "rizon"
                             { nwW with
                                 xdcc := alset nwW.xdcc "gimme"
                                           (qW.filter (fun p => ¬ (p.id = "rizon:gimme:2"))) } },
           [{ reqId := (qW.getLastD reqFallback).id, kind := k }], none) ∧
      (k = SigKind.cancel ↔ (qW.head? = some (qW.getLastD reqFallback) ∧
        mkHandle.status ≠ "created")) ∧
      k ≠ SigKind.start ∧
      (qW.getLastD reqFallback) ∉ qW.filter (fun p => ¬ (p.id = "rizon:gimme:2")) ∧
      (qW.filter (fun p => ¬ (p.id = "rizon:gimme:2"))).length + 1 = qW.length :=
  ⟨(C7_cancel_download sW3 "efnet" "gimme" "rizon:gimme:2").1 (by rfl),
   (C7_cancel_download sW3 "rizon" "zipbot" "rizon:gimme:2").2.1 nwW (by rfl) (by rfl),
   (C7_cancel_download sW3 "rizon" "gimme" "rizon:gimme:9").2.2.1 nwW qW
     (by rfl) (by rfl) (by decide),
   (C7_cancel_download sW3 "rizon" "gimme" "rizon:gimme:2").2.2.2 nwW qW
     (qW.getLastD reqFallback) mkHandle (by rfl) (by rfl) (by decide) (by decide)
     (by decide) (by decide)⟩

/-- Claim C10: when cancelDownload removes the last remaining request of a
bot's queue, the emptied per-bot entry is not deleted; every queue of the
network is then empty, yet removeNetwork still fails with "downloads
pending" because `_.size(nw.xdcc)` counts the empty entry. -/
theorem C10_empty_entry_blocks_removal (s : MState) (network bot : String)
    (nw : NetworkSt) (r : Request) (h : Handle)
    (hnw : alget s.networks network = some nw)
    (hxd : nw.xdcc = [(bot, [r])])
    (hx : r.xdcc = some h) :
    ∃ nw', alget ((cancelDownload s network bot r.id).1).networks network = some nw' ∧
      alget nw'.xdcc bot = some [] ∧
      (∀ b q, alget nw'.xdcc b = some q → q = []) ∧
      removeNetwork (cancelDownload s network bot r.id).1 network
        = ((cancelDownload s network bot r.id).1, some "downloads pending") := by
  have hq : alget nw.xdcc bot = some [r] := by
    rw [hxd]
    simp [alget]
  have hfind : [r].find? (fun p => p.id = r.id) = some r := by
    simp [List.find?]
  have hceq := cancelDownload_eq s network bot r.id nw [r] r h hnw hq hfind hx
  have hfilter : [r].filter (fun p => ¬ (p.id = r.id)) = [] := by
    simp
  have hxd' : alset nw.xdcc bot ([r].filter (fun p => ¬ (p.id = r.id))) = [(bot, [])] := by
    rw [hfilter, hxd]
    simp [alset, alget]
  refine ⟨{ nw with xdcc := alset nw.xdcc bot ([r].filter (fun p => ¬ (p.id = r.id))) },
    ?_, ?_, ?_, ?_⟩
  · rw [hceq]
    exact alget_alset_self _ network _
  · rw [hxd']
    simp [alget]
  · intro b q hbq
    rw [hxd'] at hbq
    by_cases hb : bot = b
    · subst hb
      simp [alget] at hbq
      exact hbq
    · simp [alget, hb] at hbq
  · unfold removeNetwork
    rw [hceq]
    rw [alget_alset_self]
    dsimp only
    rw [if_pos (by rw [hxd']; simp)]

/-- Witness for C10: the single-request witness queue, canceled, still
blocks network removal. -/
theorem C10_empty_entry_blocks_removal_witness :
    ∃ nw', alget ((cancelDownload sW2 "rizon" "gimme" "rizon:gimme:1").1).networks "rizon"
        = some nw' ∧
      alget nw'.xdcc "gimme" = some [] ∧
      (∀ b q, alget nw'.xdcc b = some q → q = []) ∧
      removeNetwork (cancelDownload sW2 "rizon" "gimme" "rizon:gimme:1").1 "rizon"
        = ((cancelDownload sW2 "rizon" "gimme" "rizon:gimme:1").1, some "downloads pending") :=
  C10_empty_entry_blocks_removal sW2 "rizon" "gimme"
    ((alget sW2.networks "rizon").getD { xdcc := [], connected := true })
    (((alget ((alget sW2.networks "rizon").getD { xdcc := [], connected := true }).xdcc
        "gimme").getD []).headD
      { id := "", network := "", bot := "", name := "", notices := [],
        xdcc := none, active := false })
    mkHandle (by rfl) (by rfl) (by rfl)

end Sling
